import Mathlib

/-!
Shallow embedding of the core of `pong-clones` (a Pong recreation), from
`src/rust/src/lib.rs` (the godot-extension version, the latest/authoritative
prototype) and `src/ggez/src/main.rs` (the earlier ggez prototype).

`f32` values are modelled as rationals (`ℚ`) with the source's decimal
literals taken exactly; Rust's `as i32` cast on a float is modelled as
truncation toward zero (saturation at the i32 bounds is ignored: every value
the game produces is far from those bounds).  Machine integers (`i32`) are
modelled as `Int`: no arithmetic in the modelled code comes near overflow.
-/

namespace Pong

/-- `const VIEWPORT_WIDTH: i32 = 640;` -/
def VIEWPORT_WIDTH : Int := 640

/-- `const VIEWPORT_HEIGHT: i32 = 480;` -/
def VIEWPORT_HEIGHT : Int := 480

/-- `const PX_UNIT_WIDTH: f32 = 1.68;` -/
def PX_UNIT_WIDTH : ℚ := 1.68

/-- `const PX_UNIT_HEIGHT: f32 = 1.95;` -/
def PX_UNIT_HEIGHT : ℚ := 1.95

/-- `const HBLANK: i32 = 81;` -/
def HBLANK : Int := 81

/-- `const VBLANK: i32 = 16;` -/
def VBLANK : Int := 16

/-- `const HSHIFT: i32 = 16;` -/
def HSHIFT : Int := 16

/-- `const PADDLE_MOVE_BY: f32 = 1.0;` -/
def PADDLE_MOVE_BY : ℚ := 1.0

/-- `const WIN_SCORE: i32 = 11;` -/
def WIN_SCORE : Int := 11

/-- Rust's `as i32` cast of a float: rounding toward zero. -/
def truncQ (q : ℚ) : Int := if 0 ≤ q then ⌊q⌋ else ⌈q⌉

/-- `fn hclk_to_xpos(hclk: i32) -> f32` (godot version, `src/rust/src/lib.rs`):
returns the fractional pixel position, no cast. -/
def hclk_to_xpos (hclk : Int) : ℚ :=
  let hclk_since_hblank := hclk - HBLANK + HSHIFT
  (hclk_since_hblank : ℚ) * PX_UNIT_WIDTH

/-- `fn hclk_to_px(hclk: i32) -> i32` (godot version):
`(hclk as f32 * PX_UNIT_WIDTH) as i32`. -/
def hclk_to_px (hclk : Int) : Int :=
  truncQ ((hclk : ℚ) * PX_UNIT_WIDTH)

/-- `fn vclk_to_ypos(vclk: i32) -> f32` (godot version). -/
def vclk_to_ypos (vclk : Int) : ℚ :=
  let vclk_since_vblank := vclk - VBLANK
  (vclk_since_vblank : ℚ) * PX_UNIT_HEIGHT

/-- `fn vclk_to_px(vclk: i32) -> i32` (godot version). -/
def vclk_to_px (vclk : Int) : Int :=
  truncQ ((vclk : ℚ) * PX_UNIT_HEIGHT)

/-- `fn hclk_to_xpos(hclk: i32) -> i32` (ggez version, `src/ggez/src/main.rs`):
same formula but cast to `i32` inside the function. -/
def ggez_hclk_to_xpos (hclk : Int) : Int :=
  let hclk_since_hblank := hclk - HBLANK + HSHIFT
  truncQ ((hclk_since_hblank : ℚ) * PX_UNIT_WIDTH)

/-- `fn vclk_to_ypos(vclk: i32) -> i32` (ggez version). -/
def ggez_vclk_to_ypos (vclk : Int) : Int :=
  let vclk_since_vblank := vclk - VBLANK
  truncQ ((vclk_since_vblank : ℚ) * PX_UNIT_HEIGHT)

/-- The `x`/`y` fields of `Rect::<i32>::from_clk` (godot version):
`hclk_to_xpos(hclk) as i32` and `vclk_to_ypos(vclk) as i32`. -/
def rect_from_clk_x (hclk : Int) : Int := truncQ (hclk_to_xpos hclk)

def rect_from_clk_y (vclk : Int) : Int := truncQ (vclk_to_ypos vclk)

/-- `enum PlayerSide { Left, Right }` -/
inductive PlayerSide where
  | Left : PlayerSide
  | Right : PlayerSide
deriving DecidableEq

/-- The mutable game state of `struct Ball` (engine-node plumbing fields
`polygon`, `collision`, `base` omitted; `pos`/`spawn` are `Vector2`s,
modelled as separate x/y rationals). -/
structure Ball where
  posX : ℚ
  posY : ℚ
  xvel : Int
  yvel : Int
  spawnX : ℚ
  spawnY : ℚ
  has_collided : Bool
  hit_counter : Int
deriving DecidableEq

/-- `Ball::init`: spawn at `(hclk_to_xpos(256), vclk_to_ypos(128))`,
`xvel: 0, yvel: 10, has_collided: false, hit_counter: 0`. -/
def Ball.init : Ball :=
  let spawn_x := hclk_to_xpos 256
  let spawn_y := vclk_to_ypos 128
  { posX := spawn_x
    posY := spawn_y
    xvel := 0
    yvel := 10
    spawnX := spawn_x
    spawnY := spawn_y
    has_collided := false
    hit_counter := 0 }

/-- `Ball::serve`: `self.hit_counter = 0; self.pos = self.spawn;`
(the engine call `set_global_position` only mirrors `pos` to the scene). -/
def Ball.serve (b : Ball) : Ball :=
  { b with hit_counter := 0, posX := b.spawnX, posY := b.spawnY }

/-- The `height_sec` table of `Ball::process`: vertical velocity class to
screen-heights-per-second. -/
def heightSec (yvel : Int) : ℚ :=
  match yvel with
  | -3 => -0.695
  | -2 => -0.462
  | -1 => -0.226
  | 0 => 0.0
  | 1 => 0.228
  | 2 => 0.455
  | 3 => 0.680
  | _ => 0.0

/-- The `width_sec` table of `Ball::process`: horizontal velocity class to
screen-widths-per-second. -/
def widthSec (xvel : Int) : ℚ :=
  match xvel with
  | -3 => -0.53
  | -2 => -0.39
  | -1 => -0.26
  | 0 => 0.0
  | 1 => 0.26
  | 2 => 0.39
  | 3 => 0.53
  | _ => 0.0

/-- `Ball::process(delta)`: recompute `xvel` from `hit_counter` (Rust `match`
with guards `x if x < 4`, `x if x < 12`, `x if x >= 12`, `_ => 0`), look up
the speed tables, clear `has_collided` when the ball is inside
`hclk_to_xpos(144)..hclk_to_xpos(368)` (a half-open Rust `Range`, tested on
the pre-integration position), then integrate the position. -/
def Ball.process (delta : ℚ) (b : Ball) : Ball :=
  let xvel_positive := if b.xvel > 0 then true else false
  let xvel : Int :=
    if b.hit_counter < 4 then (if xvel_positive then 1 else -1)
    else if b.hit_counter < 12 then (if xvel_positive then 2 else -2)
    else if b.hit_counter ≥ 12 then (if xvel_positive then 3 else -3)
    else 0
  let height_sec := heightSec b.yvel
  let width_sec := widthSec xvel
  let has_collided :=
    if b.has_collided = true ∧ hclk_to_xpos 144 ≤ b.posX ∧ b.posX < hclk_to_xpos 368
    then false
    else b.has_collided
  let y_px_sec := height_sec * (VIEWPORT_HEIGHT : ℚ)
  let x_px_sec := width_sec * (VIEWPORT_WIDTH : ℚ)
  let xpos := x_px_sec * delta
  let ypos := y_px_sec * delta
  { b with
    xvel := xvel
    has_collided := has_collided
    posX := b.posX + xpos
    posY := b.posY + ypos }

/-- The `yvel` table of `Paddle::on_paddle_area_shape_entered`: collision
segment index to outgoing vertical velocity class. -/
def segmentYvel (local_shape_index : Int) : Int :=
  match local_shape_index with
  | 0 => -3
  | 1 => -2
  | 2 => -1
  | 3 => 0
  | 4 => 1
  | 5 => 2
  | 6 => 3
  | _ => 0

/-- `Paddle::on_paddle_area_shape_entered` acting on the struck ball:
if `!has_collided`, set the flag, set `yvel` from the segment table, negate
`xvel`, and increment `hit_counter`; otherwise leave the ball unchanged. -/
def on_paddle_area_shape_entered (local_shape_index : Int) (b : Ball) : Ball :=
  if b.has_collided = false then
    { b with
      has_collided := true
      yvel := segmentYvel local_shape_index
      xvel := b.xvel * -1
      hit_counter := b.hit_counter + 1 }
  else b

/-- The paddle state of `struct Paddle` (rendering/collision-node fields
omitted; `side` is immutable and does not affect movement). -/
structure Paddle where
  ypos : ℚ
  side : PlayerSide

/-- `Paddle::move_up(delta)`: step up by `PADDLE_MOVE_BY * VIEWPORT_HEIGHT *
delta`, clamped below at `vclk_to_ypos(32)`. -/
def Paddle.move_up (delta : ℚ) (p : Paddle) : Paddle :=
  let min_ypos := vclk_to_ypos 32
  let new_ypos := p.ypos - PADDLE_MOVE_BY * (VIEWPORT_HEIGHT : ℚ) * delta
  if new_ypos ≥ min_ypos then { p with ypos := new_ypos }
  else { p with ypos := min_ypos }

/-- `Paddle::move_down(delta)`: step down, clamped above at
`VIEWPORT_HEIGHT - vclk_to_px(16) - bat_height` where
`bat_height = vclk_to_px(16)`. -/
def Paddle.move_down (delta : ℚ) (p : Paddle) : Paddle :=
  let bat_height := vclk_to_px 16
  let max_ypos : ℚ := ((VIEWPORT_HEIGHT - vclk_to_px 16 - bat_height : Int) : ℚ)
  let new_ypos := p.ypos + PADDLE_MOVE_BY * (VIEWPORT_HEIGHT : ℚ) * delta
  if new_ypos ≤ max_ypos then { p with ypos := new_ypos }
  else { p with ypos := max_ypos }

/-- The events `ScoreDisplay` can emit: `score_updated` and `game_over`
(both signals carry no arguments in the source). -/
inductive PongEvent where
  | score_updated : PongEvent
  | game_over : PongEvent
deriving DecidableEq

/-- The state of `struct ScoreDisplay`: `score: [i32; 2]`
(`score[0]` is the left player, `score[1]` the right). -/
structure ScoreDisplay where
  score0 : Int
  score1 : Int
deriving DecidableEq

/-- `ScoreDisplay::on_score(side)`: on `"left"`/`"right"` increment that
side's counter; if it reached `WIN_SCORE` emit `game_over` and return
(skipping `score_updated`), otherwise emit `score_updated`; any other
string falls through both `if`s and does nothing. -/
def on_score (side : String) (s : ScoreDisplay) : ScoreDisplay × List PongEvent :=
  if side = "left" then
    let s := { s with score0 := s.score0 + 1 }
    if s.score0 = WIN_SCORE then (s, [PongEvent.game_over])
    else (s, [PongEvent.score_updated])
  else if side = "right" then
    let s := { s with score1 := s.score1 + 1 }
    if s.score1 = WIN_SCORE then (s, [PongEvent.game_over])
    else (s, [PongEvent.score_updated])
  else (s, [])

/-- State after a sequence of `on_score` calls. -/
def runScore (sides : List String) (s : ScoreDisplay) : ScoreDisplay :=
  match sides with
  | [] => s
  | side :: rest => runScore rest (on_score side s).1

/-- The per-call event log of a sequence of `on_score` calls, each entry
tagged with the side argument of the call that emitted it. -/
def runScoreEvents (sides : List String) (s : ScoreDisplay) :
    List (String × List PongEvent) :=
  match sides with
  | [] => []
  | side :: rest =>
    (side, (on_score side s).2) :: runScoreEvents rest (on_score side s).1

/-- How many calls with side tag `side` emitted `game_over` in a log. -/
def countGameOver (side : String) (log : List (String × List PongEvent)) : Nat :=
  (log.filter (fun p => decide (p.1 = side ∧ PongEvent.game_over ∈ p.2))).length

/-- An input-intent event for a paddle: one `move_up` or `move_down` call
with its frame delta. -/
inductive PaddleMove where
  | up (delta : ℚ) : PaddleMove
  | down (delta : ℚ) : PaddleMove

/-- The delta argument carried by a move. -/
def PaddleMove.delta : PaddleMove → ℚ
  | up d => d
  | down d => d

/-- Apply one move to a paddle. -/
def applyMove (m : PaddleMove) (p : Paddle) : Paddle :=
  match m with
  | PaddleMove.up d => Paddle.move_up d p
  | PaddleMove.down d => Paddle.move_down d p

/-- Apply a finite sequence of moves, left to right. -/
def applyMoves (ms : List PaddleMove) (p : Paddle) : Paddle :=
  match ms with
  | [] => p
  | m :: rest => applyMoves rest (applyMove m p)

/-- The lower clamp of `Paddle::move_up`: `vclk_to_ypos(32)`. -/
def paddleMinY : ℚ := vclk_to_ypos 32

/-- The upper clamp of `Paddle::move_down`:
`VIEWPORT_HEIGHT - vclk_to_px(16) - bat_height` with
`bat_height = vclk_to_px(16)` (the paddle height). -/
def paddleMaxY : ℚ :=
  ((VIEWPORT_HEIGHT - vclk_to_px 16 - vclk_to_px 16 : Int) : ℚ)

/-! ## Helper lemmas -/

/-- Truncation toward zero is monotone. -/
theorem truncQ_mono {q r : ℚ} (h : q ≤ r) : truncQ q ≤ truncQ r := by
  unfold truncQ
  by_cases hq : 0 ≤ q
  · rw [if_pos hq, if_pos (hq.trans h)]
    exact Int.floor_le_floor h
  · rw [if_neg hq]
    by_cases hr : 0 ≤ r
    · rw [if_pos hr]
      have h1 : ⌈q⌉ ≤ 0 := Int.ceil_le.mpr (by exact_mod_cast le_of_not_le hq)
      have h2 : (0 : ℤ) ≤ ⌊r⌋ := Int.floor_nonneg.mpr hr
      omega
    · rw [if_neg hr]
      exact Int.ceil_le_ceil h

/-- The horizontal velocity class computed at the top of `Ball::process`,
as a closed form (the dead `_ => 0` arm of the source `match` never fires). -/
theorem process_xvel (delta : ℚ) (b : Ball) :
    (Ball.process delta b).xvel =
      if b.hit_counter < 4 then (if 0 < b.xvel then 1 else -1)
      else if b.hit_counter < 12 then (if 0 < b.xvel then 2 else -2)
      else (if 0 < b.xvel then 3 else -3) := by
  unfold Ball.process
  by_cases h1 : b.hit_counter < 4 <;> by_cases h2 : b.hit_counter < 12 <;>
    by_cases h3 : 0 < b.xvel <;>
    simp [h1, h2, h3]

/-- The vertical position integration step of `Ball::process`. -/
theorem process_posY (delta : ℚ) (b : Ball) :
    (Ball.process delta b).posY =
      b.posY + heightSec b.yvel * (VIEWPORT_HEIGHT : ℚ) * delta := rfl

/-! ## Claims -/

/-- C1 counterexample: `serve()` does not touch the vertical velocity class.
A ball whose `yvel` is 2 still has `yvel = 2` (not 0) after `serve()`,
refuting "vertical velocity class equals 0" as stated. -/
theorem serve_yvel_counterexample :
    (Ball.serve { Ball.init with yvel := 2 }).yvel = 2 ∧ (2 : Int) ≠ 0 :=
  ⟨rfl, by decide⟩

/-- C1 (amended): `serve()` resets the hit counter to 0 and the position to
the fixed spawn point, but leaves the vertical velocity class (and the
horizontal velocity class) unchanged. -/
theorem serve_resets_hit_and_position (b : Ball) :
    (Ball.serve b).hit_counter = 0 ∧
    (Ball.serve b).posX = b.spawnX ∧ (Ball.serve b).posY = b.spawnY ∧
    (Ball.serve b).spawnX = b.spawnX ∧ (Ball.serve b).spawnY = b.spawnY ∧
    (Ball.serve b).yvel = b.yvel ∧ (Ball.serve b).xvel = b.xvel :=
  ⟨rfl, rfl, rfl, rfl, rfl, rfl, rfl⟩

/-- C7: the per-frame vertical speed (screen heights per second) equals the
table value on classes −3..3 and 0 on every other class (defensive default,
total function); `Ball::process` integrates `posY` with exactly this speed. -/
theorem vertical_speed_table :
    heightSec (-3) = -0.695 ∧ heightSec (-2) = -0.462 ∧
    heightSec (-1) = -0.226 ∧ heightSec 0 = 0 ∧ heightSec 1 = 0.228 ∧
    heightSec 2 = 0.455 ∧ heightSec 3 = 0.680 ∧
    (∀ v : Int, v < -3 ∨ 3 < v → heightSec v = 0) ∧
    (∀ (delta : ℚ) (b : Ball),
      (Ball.process delta b).posY =
        b.posY + heightSec b.yvel * (VIEWPORT_HEIGHT : ℚ) * delta) := by
  refine ⟨rfl, rfl, rfl, by norm_num [heightSec], rfl, rfl, rfl, ?_,
    fun delta b => rfl⟩
  intro v h
  unfold heightSec
  split <;> first | (exfalso; omega) | norm_num

/-- C7 witness: the defensive default at the out-of-range class 10 (the
constructor's initial `yvel`), together with an in-range table entry. -/
theorem vertical_speed_table_witness :
    heightSec 10 = 0 ∧ heightSec (-3) = -0.695 :=
  ⟨vertical_speed_table.2.2.2.2.2.2.2.1 10 (by omega), vertical_speed_table.1⟩

/-- C9 counterexample: an invalid side string is silently tolerated by
`ScoreDisplay::on_score` — the state is unchanged and no signal is emitted,
refuting "fails loudly with an assertion". -/
theorem on_score_invalid_counterexample :
    on_score "center" { score0 := 3, score1 := 4 } =
      ({ score0 := 3, score1 := 4 }, []) := by
  simp [on_score]

/-- C9 (amended): a side identifier that is neither `"left"` nor `"right"`
is silently ignored by `on_score`: both counters are unchanged and no event
is emitted (there is no assertion in the code). -/
theorem on_score_invalid_ignored (side : String) (s : ScoreDisplay)
    (h1 : side ≠ "left") (h2 : side ≠ "right") :
    on_score side s = (s, []) := by
  simp [on_score, h1, h2]

/-- C9 (amended) witness: the invalid side `"center"` at score (0, 0). -/
theorem on_score_invalid_ignored_witness :
    on_score "center" { score0 := 0, score1 := 0 } =
      ({ score0 := 0, score1 := 0 }, []) :=
  on_score_invalid_ignored "center" { score0 := 0, score1 := 0 }
    (by decide) (by decide)

/-- C6 counterexample: the godot `hclk_to_xpos` does not truncate — at
`hclk = 144` it returns the fractional value 3318/25 = 132.72 (denominator
25, not an integer), while truncation toward zero would give 132. -/
theorem hclk_to_xpos_not_truncated :
    hclk_to_xpos 144 = 3318/25 ∧ (hclk_to_xpos 144).den = 25 ∧
    truncQ (hclk_to_xpos 144) = 132 ∧ hclk_to_xpos 144 ≠ ((132 : Int) : ℚ) := by
  refine ⟨?_, ?_, ?_, ?_⟩ <;>
    norm_num [truncQ, hclk_to_xpos, HBLANK, HSHIFT, PX_UNIT_WIDTH]

/-- C6 (amended): the earlier ggez `hclkToXPos`/`vclkToYPos` truncate
`(hclk - hBlank + hShift) * pxPerHUnit` (resp. `(vclk - vBlank) *
pxPerVUnit`) toward zero to an integer pixel; the latest (godot) versions
return the same products untruncated (fractional), and truncation toward
zero is instead applied at consuming call sites such as
`Rect::from_clk`. -/
theorem coordinate_truncation :
    (∀ hclk : Int, ggez_hclk_to_xpos hclk = truncQ (hclk_to_xpos hclk)) ∧
    (∀ vclk : Int, ggez_vclk_to_ypos vclk = truncQ (vclk_to_ypos vclk)) ∧
    (∀ hclk : Int,
      hclk_to_xpos hclk = ((hclk - HBLANK + HSHIFT : Int) : ℚ) * PX_UNIT_WIDTH) ∧
    (∀ vclk : Int,
      vclk_to_ypos vclk = ((vclk - VBLANK : Int) : ℚ) * PX_UNIT_HEIGHT) ∧
    (∀ hclk : Int, rect_from_clk_x hclk = truncQ (hclk_to_xpos hclk)) ∧
    (∀ vclk : Int, rect_from_clk_y vclk = truncQ (vclk_to_ypos vclk)) :=
  ⟨fun _ => rfl, fun _ => rfl, fun _ => rfl, fun _ => rfl,
   fun _ => rfl, fun _ => rfl⟩

/-- C8: `hclk_to_xpos` (position, fractional) and `hclk_to_px` (interval,
truncated) are both monotone non-decreasing in their clock argument. -/
theorem hclk_conversions_monotone (a b : Int) (hab : a ≤ b) :
    hclk_to_xpos a ≤ hclk_to_xpos b ∧ hclk_to_px a ≤ hclk_to_px b := by
  constructor
  · unfold hclk_to_xpos
    have hw : (0 : ℚ) ≤ PX_UNIT_WIDTH := by norm_num [PX_UNIT_WIDTH]
    have : ((a - HBLANK + HSHIFT : Int) : ℚ) ≤ ((b - HBLANK + HSHIFT : Int) : ℚ) := by
      exact_mod_cast by omega
    exact mul_le_mul_of_nonneg_right this hw
  · unfold hclk_to_px
    apply truncQ_mono
    have hw : (0 : ℚ) ≤ PX_UNIT_WIDTH := by norm_num [PX_UNIT_WIDTH]
    have : ((a : Int) : ℚ) ≤ ((b : Int) : ℚ) := by exact_mod_cast hab
    exact mul_le_mul_of_nonneg_right this hw

/-- C8 witness: monotonicity instantiated at the concrete pair 144 ≤ 368. -/
theorem hclk_conversions_monotone_witness :
    hclk_to_xpos 144 ≤ hclk_to_xpos 368 ∧ hclk_to_px 144 ≤ hclk_to_px 368 :=
  hclk_conversions_monotone 144 368 (by decide)

/-- C4: each frame, `Ball::process` recomputes the horizontal velocity class
with magnitude 1 for hit counters below 4, 2 for 4..11, 3 for 12 and above
(a non-decreasing step function of the hit counter), and with the sign taken
from the previous frame's horizontal direction. -/
theorem xvel_magnitude_step (delta : ℚ) (b : Ball) (h : 0 ≤ b.hit_counter) :
    ((Ball.process delta b).xvel.natAbs =
      if b.hit_counter < 4 then 1 else if b.hit_counter < 12 then 2 else 3) ∧
    (0 < b.xvel → 0 < (Ball.process delta b).xvel) ∧
    (b.xvel < 0 → (Ball.process delta b).xvel < 0) ∧
    (∀ b' : Ball, b.hit_counter ≤ b'.hit_counter →
      (Ball.process delta b).xvel.natAbs ≤ (Ball.process delta b').xvel.natAbs) := by
  refine ⟨?_, ?_, ?_, ?_⟩
  · rw [process_xvel]
    by_cases h1 : b.hit_counter < 4 <;> by_cases h2 : b.hit_counter < 12 <;>
      by_cases h3 : 0 < b.xvel <;> simp [h1, h2, h3]
  · intro hpos
    rw [process_xvel]
    split_ifs <;> omega
  · intro hneg
    rw [process_xvel]
    have h3 : ¬(0 < b.xvel) := by omega
    split_ifs <;> omega
  · intro b' hb'
    rw [process_xvel, process_xvel]
    by_cases h1 : b.hit_counter < 4 <;> by_cases h2 : b.hit_counter < 12 <;>
      by_cases h1' : b'.hit_counter < 4 <;> by_cases h2' : b'.hit_counter < 12 <;>
      by_cases h3 : 0 < b.xvel <;> by_cases h3' : 0 < b'.xvel <;>
      simp [h1, h2, h1', h2', h3, h3'] <;> omega

/-- C4 witness: a ball with 5 hits moving left gets class −2 (magnitude 2). -/
theorem xvel_magnitude_step_witness :
    ((Ball.process 1 { Ball.init with hit_counter := 5, xvel := -1 }).xvel.natAbs = 2) ∧
    ((Ball.process 1 { Ball.init with hit_counter := 5, xvel := -1 }).xvel < 0) := by
  have h := xvel_magnitude_step 1 { Ball.init with hit_counter := 5, xvel := -1 }
    (by norm_num)
  exact ⟨by simpa using h.1, h.2.2.1 (by norm_num)⟩

/-- C10: the first serve direction is deterministic and leftward — the ball
is constructed with horizontal velocity class 0, `serve()` never changes the
horizontal velocity class, the per-frame recomputation gives any non-positive
stored class a negative sign, and so the first frame after construction (the
constructor's `ready()` calls `serve()` before the first `process`) always
yields horizontal velocity class −1. -/
theorem first_serve_direction :
    Ball.init.xvel = 0 ∧
    (∀ b : Ball, (Ball.serve b).xvel = b.xvel) ∧
    (∀ (delta : ℚ) (b : Ball), b.xvel ≤ 0 → b.hit_counter < 4 →
      (Ball.process delta b).xvel = -1) ∧
    (∀ delta : ℚ, (Ball.process delta (Ball.serve Ball.init)).xvel = -1) := by
  refine ⟨rfl, fun b => rfl, ?_, ?_⟩
  · intro delta b hx hh
    rw [process_xvel]
    have h3 : ¬(0 < b.xvel) := by omega
    simp [hh, h3]
  · intro delta
    rw [process_xvel]
    norm_num [Ball.serve, Ball.init]

/-- C10 witness: the third conjunct instantiated at the freshly constructed
ball (class 0, hit counter 0) on a frame with delta 1. -/
theorem first_serve_direction_witness :
    (Ball.process 1 Ball.init).xvel = -1 :=
  first_serve_direction.2.2.1 1 Ball.init (by norm_num [Ball.init])
    (by norm_num [Ball.init])

/-- C3: a paddle contact on a ball with the debounce flag clear sets the
flag, negates the horizontal velocity class, maps segment indices 0..6 to
vertical classes −3..3 (anything else to 0) and increments the hit counter;
a contact with the flag already set leaves the ball unchanged; on a frame
update a set flag is cleared exactly when the ball's x position lies in
`hclk_to_xpos(144)..hclk_to_xpos(368)`; in particular a ball with hit
counter 5 struck at segment 0 gets class −3, a flipped horizontal sign and
hit counter 6. -/
theorem paddle_collision_spec :
    (∀ (idx : Int) (b : Ball), b.has_collided = false →
      (on_paddle_area_shape_entered idx b).has_collided = true ∧
      (on_paddle_area_shape_entered idx b).xvel = -b.xvel ∧
      (on_paddle_area_shape_entered idx b).yvel = segmentYvel idx ∧
      (on_paddle_area_shape_entered idx b).hit_counter = b.hit_counter + 1) ∧
    (∀ idx : Int, 0 ≤ idx → idx ≤ 6 → segmentYvel idx = idx - 3) ∧
    (∀ idx : Int, idx < 0 ∨ 6 < idx → segmentYvel idx = 0) ∧
    (∀ (idx : Int) (b : Ball), b.has_collided = true →
      on_paddle_area_shape_entered idx b = b) ∧
    (∀ (delta : ℚ) (b : Ball), b.has_collided = true →
      ((Ball.process delta b).has_collided = false ↔
        (hclk_to_xpos 144 ≤ b.posX ∧ b.posX < hclk_to_xpos 368))) ∧
    (∀ b : Ball, b.has_collided = false → b.hit_counter = 5 →
      (on_paddle_area_shape_entered 0 b).yvel = -3 ∧
      (on_paddle_area_shape_entered 0 b).xvel = -b.xvel ∧
      (on_paddle_area_shape_entered 0 b).hit_counter = 6) := by
  refine ⟨?_, ?_, ?_, ?_, ?_, ?_⟩
  · intro idx b hb
    simp [on_paddle_area_shape_entered, hb]
  · intro idx h1 h2
    interval_cases idx <;> rfl
  · intro idx h
    unfold segmentYvel
    split <;> first | (exfalso; omega) | rfl
  · intro idx b hb
    simp [on_paddle_area_shape_entered, hb]
  · intro delta b hb
    unfold Ball.process
    by_cases hz : hclk_to_xpos 144 ≤ b.posX ∧ b.posX < hclk_to_xpos 368
    · simp [hb, hz]
    · simp [hb, hz]
  · intro b hb hh
    simp [on_paddle_area_shape_entered, hb, hh, segmentYvel]

/-- C3 witness: the scenario — debounce flag clear, hit counter 5, leftward
ball struck at segment index 0. -/
theorem paddle_collision_spec_witness :
    (on_paddle_area_shape_entered 0
      { Ball.init with hit_counter := 5, xvel := -1 }).yvel = -3 ∧
    (on_paddle_area_shape_entered 0
      { Ball.init with hit_counter := 5, xvel := -1 }).xvel = 1 ∧
    (on_paddle_area_shape_entered 0
      { Ball.init with hit_counter := 5, xvel := -1 }).hit_counter = 6 := by
  have h := paddle_collision_spec.2.2.2.2.2
    { Ball.init with hit_counter := 5, xvel := -1 } rfl rfl
  exact ⟨h.1, by rw [h.2.1]; rfl, h.2.2⟩

/-- `vclk_to_px 16 = ⌊16 * 1.95⌋ = ⌊31.2⌋ = 31`. -/
theorem vclk_to_px_16 : vclk_to_px 16 = 31 := by
  norm_num [vclk_to_px, truncQ, PX_UNIT_HEIGHT]

theorem paddleMinY_eq : paddleMinY = 156/5 := by
  norm_num [paddleMinY, vclk_to_ypos, VBLANK, PX_UNIT_HEIGHT]

theorem paddleMaxY_eq : paddleMaxY = 418 := by
  norm_num [paddleMaxY, vclk_to_px_16, VIEWPORT_HEIGHT]

theorem paddleMin_le_max : paddleMinY ≤ paddleMaxY := by
  rw [paddleMinY_eq, paddleMaxY_eq]; norm_num

/-- One `move_up` call keeps an in-bounds paddle in bounds (delta ≥ 0). -/
theorem move_up_bounds (d : ℚ) (hd : 0 ≤ d) (p : Paddle)
    (h1 : paddleMinY ≤ p.ypos) (h2 : p.ypos ≤ paddleMaxY) :
    paddleMinY ≤ (Paddle.move_up d p).ypos ∧
    (Paddle.move_up d p).ypos ≤ paddleMaxY := by
  have hstep : 0 ≤ PADDLE_MOVE_BY * (VIEWPORT_HEIGHT : ℚ) * d :=
    mul_nonneg (mul_nonneg (by norm_num [PADDLE_MOVE_BY])
      (by norm_num [VIEWPORT_HEIGHT])) hd
  unfold Paddle.move_up
  by_cases hc : p.ypos - PADDLE_MOVE_BY * (VIEWPORT_HEIGHT : ℚ) * d ≥ vclk_to_ypos 32
  · rw [if_pos hc]
    exact ⟨hc, by dsimp only; linarith⟩
  · rw [if_neg hc]
    exact ⟨le_refl _, paddleMin_le_max⟩

/-- One `move_down` call keeps an in-bounds paddle in bounds (delta ≥ 0). -/
theorem move_down_bounds (d : ℚ) (hd : 0 ≤ d) (p : Paddle)
    (h1 : paddleMinY ≤ p.ypos) (h2 : p.ypos ≤ paddleMaxY) :
    paddleMinY ≤ (Paddle.move_down d p).ypos ∧
    (Paddle.move_down d p).ypos ≤ paddleMaxY := by
  have hstep : 0 ≤ PADDLE_MOVE_BY * (VIEWPORT_HEIGHT : ℚ) * d :=
    mul_nonneg (mul_nonneg (by norm_num [PADDLE_MOVE_BY])
      (by norm_num [VIEWPORT_HEIGHT])) hd
  unfold Paddle.move_down
  by_cases hc : p.ypos + PADDLE_MOVE_BY * (VIEWPORT_HEIGHT : ℚ) * d ≤
      ((VIEWPORT_HEIGHT - vclk_to_px 16 - vclk_to_px 16 : Int) : ℚ)
  · rw [if_pos hc]
    exact ⟨by dsimp only; linarith, hc⟩
  · rw [if_neg hc]
    exact ⟨paddleMin_le_max, le_refl _⟩

/-- C5: after any finite sequence of `move_up`/`move_down` calls with
non-negative deltas, a paddle that started inside
`[vclk_to_ypos(32), VIEWPORT_HEIGHT - vclk_to_px(16) - bat_height]`
is still inside it. -/
theorem paddle_position_bounded (ms : List PaddleMove) (p : Paddle)
    (hd : ∀ m ∈ ms, 0 ≤ m.delta)
    (h1 : paddleMinY ≤ p.ypos) (h2 : p.ypos ≤ paddleMaxY) :
    paddleMinY ≤ (applyMoves ms p).ypos ∧
    (applyMoves ms p).ypos ≤ paddleMaxY := by
  induction ms generalizing p with
  | nil => exact ⟨h1, h2⟩
  | cons m rest ih =>
    have hm : 0 ≤ m.delta := hd m (List.mem_cons_self m rest)
    have hrest : ∀ m' ∈ rest, 0 ≤ m'.delta :=
      fun m' hm' => hd m' (List.mem_cons_of_mem m hm')
    cases m with
    | up d =>
      have hb := move_up_bounds d hm p h1 h2
      exact ih (Paddle.move_up d p) hrest hb.1 hb.2
    | down d =>
      have hb := move_down_bounds d hm p h1 h2
      exact ih (Paddle.move_down d p) hrest hb.1 hb.2

/-- C5 witness: the paddle's initial position `vclk_to_ypos 120` under the
move sequence up(1), down(2), up(3). -/
theorem paddle_position_bounded_witness :
    paddleMinY ≤ (applyMoves [PaddleMove.up 1, PaddleMove.down 2, PaddleMove.up 3]
      { ypos := vclk_to_ypos 120, side := PlayerSide.Left }).ypos ∧
    (applyMoves [PaddleMove.up 1, PaddleMove.down 2, PaddleMove.up 3]
      { ypos := vclk_to_ypos 120, side := PlayerSide.Left }).ypos ≤ paddleMaxY :=
  paddle_position_bounded _ _
    (by
      intro m hm
      simp only [List.mem_cons, List.not_mem_nil, or_false] at hm
      rcases hm with h | h | h <;> subst h <;> norm_num [PaddleMove.delta])
    (by rw [paddleMinY_eq]; norm_num [vclk_to_ypos, VBLANK, PX_UNIT_HEIGHT])
    (by rw [paddleMaxY_eq]; norm_num [vclk_to_ypos, VBLANK, PX_UNIT_HEIGHT])

/-- One `on_score` call never decreases either counter. -/
theorem on_score_state_mono (side : String) (s : ScoreDisplay) :
    s.score0 ≤ (on_score side s).1.score0 ∧
    s.score1 ≤ (on_score side s).1.score1 := by
  by_cases h1 : side = "left" <;> by_cases h2 : s.score0 + 1 = WIN_SCORE <;>
    by_cases h3 : side = "right" <;> by_cases h4 : s.score1 + 1 = WIN_SCORE <;>
    simp [on_score, h1, h2, h3, h4] <;> omega

/-- The state change of one `on_score` call, in closed form. -/
theorem on_score_state (side : String) (s : ScoreDisplay) :
    (on_score side s).1.score0 = (if side = "left" then s.score0 + 1 else s.score0) ∧
    (on_score side s).1.score1 = (if side = "right" then s.score1 + 1 else s.score1) := by
  by_cases h1 : side = "left" <;> by_cases h2 : s.score0 + 1 = WIN_SCORE <;>
    by_cases h3 : side = "right" <;> by_cases h4 : s.score1 + 1 = WIN_SCORE <;>
    simp_all [on_score]

/-- `game_over` is emitted exactly when the incremented counter lands on
`WIN_SCORE = 11`, i.e. exactly when that side's counter was 10. -/
theorem on_score_game_over_iff (side : String) (s : ScoreDisplay) :
    PongEvent.game_over ∈ (on_score side s).2 ↔
      ((side = "left" ∧ s.score0 = 10) ∨ (side = "right" ∧ s.score1 = 10)) := by
  by_cases h1 : side = "left" <;> by_cases h2 : s.score0 + 1 = WIN_SCORE <;>
    by_cases h3 : side = "right" <;> by_cases h4 : s.score1 + 1 = WIN_SCORE <;>
    simp_all [on_score, WIN_SCORE] <;> omega

/-- When `game_over` is emitted, `score_updated` is not. -/
theorem on_score_no_update_on_game_over (side : String) (s : ScoreDisplay) :
    PongEvent.game_over ∈ (on_score side s).2 →
      PongEvent.score_updated ∉ (on_score side s).2 := by
  by_cases h1 : side = "left" <;> by_cases h2 : s.score0 + 1 = WIN_SCORE <;>
    by_cases h3 : side = "right" <;> by_cases h4 : s.score1 + 1 = WIN_SCORE <;>
    simp [on_score, h1, h2, h3, h4]

/-- `runScore` never decreases either counter. -/
theorem runScore_mono (sides : List String) (s : ScoreDisplay) :
    s.score0 ≤ (runScore sides s).score0 ∧
    s.score1 ≤ (runScore sides s).score1 := by
  induction sides generalizing s with
  | nil => exact ⟨le_refl _, le_refl _⟩
  | cons side rest ih =>
    have hstep := on_score_state_mono side s
    have htail := ih (on_score side s).1
    exact ⟨hstep.1.trans htail.1, hstep.2.trans htail.2⟩

theorem countGameOver_nil (side : String) : countGameOver side [] = 0 := rfl

theorem countGameOver_cons (side : String) (p : String × List PongEvent)
    (log : List (String × List PongEvent)) :
    countGameOver side (p :: log) =
      (if p.1 = side ∧ PongEvent.game_over ∈ p.2 then 1 else 0) +
        countGameOver side log := by
  unfold countGameOver
  by_cases h : p.1 = side ∧ PongEvent.game_over ∈ p.2 <;>
    simp [h, List.filter_cons] <;> omega

theorem runScoreEvents_cons (side : String) (rest : List String)
    (s : ScoreDisplay) :
    runScoreEvents (side :: rest) s =
      (side, (on_score side s).2) :: runScoreEvents rest (on_score side s).1 := rfl

/-- Once the left counter is at least 11 it is never 10 again, so no later
call can emit a left `game_over`. -/
theorem countGameOver_left_zero (sides : List String) (s : ScoreDisplay)
    (hs : 11 ≤ s.score0) :
    countGameOver "left" (runScoreEvents sides s) = 0 := by
  induction sides generalizing s with
  | nil => rfl
  | cons side rest ih =>
    rw [runScoreEvents_cons, countGameOver_cons]
    have hnot : ¬(side = "left" ∧ PongEvent.game_over ∈ (on_score side s).2) := by
      rintro ⟨h1, h2⟩
      rcases (on_score_game_over_iff side s).mp h2 with ⟨_, h10⟩ | ⟨hr, _⟩
      · omega
      · rw [h1] at hr
        exact absurd hr (by decide)
    have hs' : 11 ≤ (on_score side s).1.score0 := by
      have h := (on_score_state side s).1
      by_cases hl : side = "left"
      · rw [if_pos hl] at h; omega
      · rw [if_neg hl] at h; omega
    rw [if_neg hnot, ih (on_score side s).1 hs']

/-- Symmetric statement for the right counter. -/
theorem countGameOver_right_zero (sides : List String) (s : ScoreDisplay)
    (hs : 11 ≤ s.score1) :
    countGameOver "right" (runScoreEvents sides s) = 0 := by
  induction sides generalizing s with
  | nil => rfl
  | cons side rest ih =>
    rw [runScoreEvents_cons, countGameOver_cons]
    have hnot : ¬(side = "right" ∧ PongEvent.game_over ∈ (on_score side s).2) := by
      rintro ⟨h1, h2⟩
      rcases (on_score_game_over_iff side s).mp h2 with ⟨hl, _⟩ | ⟨_, h10⟩
      · rw [h1] at hl
        exact absurd hl (by decide)
      · omega
    have hs' : 11 ≤ (on_score side s).1.score1 := by
      have h := (on_score_state side s).2
      by_cases hl : side = "right"
      · rw [if_pos hl] at h; omega
      · rw [if_neg hl] at h; omega
    rw [if_neg hnot, ih (on_score side s).1 hs']

/-- A left `game_over` can fire at most once in any run. -/
theorem countGameOver_left_le_one (sides : List String) (s : ScoreDisplay) :
    countGameOver "left" (runScoreEvents sides s) ≤ 1 := by
  induction sides generalizing s with
  | nil =>
    rw [show runScoreEvents ([] : List String) s = [] from rfl, countGameOver_nil]
    omega
  | cons side rest ih =>
    rw [runScoreEvents_cons, countGameOver_cons]
    by_cases h : side = "left" ∧ PongEvent.game_over ∈ (on_score side s).2
    · rw [if_pos h]
      have h10 : s.score0 = 10 := by
        rcases (on_score_game_over_iff side s).mp h.2 with ⟨_, h10⟩ | ⟨hr, _⟩
        · exact h10
        · rw [h.1] at hr
          exact absurd hr (by decide)
      have hs' : 11 ≤ (on_score side s).1.score0 := by
        have hst := (on_score_state side s).1
        rw [if_pos h.1] at hst
        omega
      rw [countGameOver_left_zero rest _ hs']
    · rw [if_neg h]
      simpa using ih (on_score side s).1

/-- A right `game_over` can fire at most once in any run. -/
theorem countGameOver_right_le_one (sides : List String) (s : ScoreDisplay) :
    countGameOver "right" (runScoreEvents sides s) ≤ 1 := by
  induction sides generalizing s with
  | nil =>
    rw [show runScoreEvents ([] : List String) s = [] from rfl, countGameOver_nil]
    omega
  | cons side rest ih =>
    rw [runScoreEvents_cons, countGameOver_cons]
    by_cases h : side = "right" ∧ PongEvent.game_over ∈ (on_score side s).2
    · rw [if_pos h]
      have h10 : s.score1 = 10 := by
        rcases (on_score_game_over_iff side s).mp h.2 with ⟨hl, _⟩ | ⟨_, h10⟩
        · rw [h.1] at hl
          exact absurd hl (by decide)
        · exact h10
      have hs' : 11 ≤ (on_score side s).1.score1 := by
        have hst := (on_score_state side s).2
        rw [if_pos h.1] at hst
        omega
      rw [countGameOver_right_zero rest _ hs']
    · rw [if_neg h]
      simpa using ih (on_score side s).1

/-- If the left counter starts at most 10 and ends at least 11, the left
`game_over` fired exactly once. -/
theorem countGameOver_left_eq_one (sides : List String) (s : ScoreDisplay)
    (h0 : s.score0 ≤ 10) (hfin : 11 ≤ (runScore sides s).score0) :
    countGameOver "left" (runScoreEvents sides s) = 1 := by
  induction sides generalizing s with
  | nil =>
    exfalso
    rw [show runScore ([] : List String) s = s from rfl] at hfin
    omega
  | cons side rest ih =>
    rw [runScoreEvents_cons, countGameOver_cons]
    have hst := (on_score_state side s).1
    by_cases hl : side = "left"
    · rw [if_pos hl] at hst
      by_cases h10 : s.score0 = 10
      · have hmem : PongEvent.game_over ∈ (on_score side s).2 :=
          (on_score_game_over_iff side s).mpr (Or.inl ⟨hl, h10⟩)
        rw [if_pos ⟨hl, hmem⟩]
        have hs' : 11 ≤ (on_score side s).1.score0 := by omega
        rw [countGameOver_left_zero rest _ hs']
      · have hnot : ¬(side = "left" ∧ PongEvent.game_over ∈ (on_score side s).2) := by
          rintro ⟨_, hmem⟩
          rcases (on_score_game_over_iff side s).mp hmem with ⟨_, hx⟩ | ⟨hr, _⟩
          · exact h10 hx
          · rw [hl] at hr
            exact absurd hr (by decide)
        rw [if_neg hnot]
        simpa using ih (on_score side s).1 (by omega) hfin
    · rw [if_neg hl] at hst
      have hnot : ¬(side = "left" ∧ PongEvent.game_over ∈ (on_score side s).2) :=
        fun hc => hl hc.1
      rw [if_neg hnot]
      simpa using ih (on_score side s).1 (by omega) hfin

/-- If the right counter starts at most 10 and ends at least 11, the right
`game_over` fired exactly once. -/
theorem countGameOver_right_eq_one (sides : List String) (s : ScoreDisplay)
    (h0 : s.score1 ≤ 10) (hfin : 11 ≤ (runScore sides s).score1) :
    countGameOver "right" (runScoreEvents sides s) = 1 := by
  induction sides generalizing s with
  | nil =>
    exfalso
    rw [show runScore ([] : List String) s = s from rfl] at hfin
    omega
  | cons side rest ih =>
    rw [runScoreEvents_cons, countGameOver_cons]
    have hst := (on_score_state side s).2
    by_cases hl : side = "right"
    · rw [if_pos hl] at hst
      by_cases h10 : s.score1 = 10
      · have hmem : PongEvent.game_over ∈ (on_score side s).2 :=
          (on_score_game_over_iff side s).mpr (Or.inr ⟨hl, h10⟩)
        rw [if_pos ⟨hl, hmem⟩]
        have hs' : 11 ≤ (on_score side s).1.score1 := by omega
        rw [countGameOver_right_zero rest _ hs']
      · have hnot : ¬(side = "right" ∧ PongEvent.game_over ∈ (on_score side s).2) := by
          rintro ⟨_, hmem⟩
          rcases (on_score_game_over_iff side s).mp hmem with ⟨hr, _⟩ | ⟨_, hx⟩
          · rw [hl] at hr
            exact absurd hr (by decide)
          · exact h10 hx
        rw [if_neg hnot]
        simpa using ih (on_score side s).1 (by omega) hfin
    · rw [if_neg hl] at hst
      have hnot : ¬(side = "right" ∧ PongEvent.game_over ∈ (on_score side s).2) :=
        fun hc => hl hc.1
      rw [if_neg hnot]
      simpa using ih (on_score side s).1 (by omega) hfin

/-- C2: over every sequence of `on_score` events, neither side's counter
ever decreases; `game_over` is emitted exactly on the call that moves a
side's counter from 10 to 11, with no `score_updated` on that call; and in
a run from the initial score (0, 0), each side's `game_over` fires at most
once, and exactly once as soon as that side's counter has passed 11. -/
theorem score_tracker_spec :
    (∀ (sides : List String) (s : ScoreDisplay),
      s.score0 ≤ (runScore sides s).score0 ∧
      s.score1 ≤ (runScore sides s).score1) ∧
    (∀ (side : String) (s : ScoreDisplay),
      PongEvent.game_over ∈ (on_score side s).2 ↔
        ((side = "left" ∧ s.score0 = 10) ∨ (side = "right" ∧ s.score1 = 10))) ∧
    (∀ (side : String) (s : ScoreDisplay),
      PongEvent.game_over ∈ (on_score side s).2 →
        PongEvent.score_updated ∉ (on_score side s).2) ∧
    (∀ sides : List String,
      countGameOver "left" (runScoreEvents sides { score0 := 0, score1 := 0 }) ≤ 1 ∧
      countGameOver "right" (runScoreEvents sides { score0 := 0, score1 := 0 }) ≤ 1) ∧
    (∀ sides : List String,
      11 ≤ (runScore sides { score0 := 0, score1 := 0 }).score0 →
      countGameOver "left" (runScoreEvents sides { score0 := 0, score1 := 0 }) = 1) ∧
    (∀ sides : List String,
      11 ≤ (runScore sides { score0 := 0, score1 := 0 }).score1 →
      countGameOver "right" (runScoreEvents sides { score0 := 0, score1 := 0 }) = 1) :=
  ⟨runScore_mono, on_score_game_over_iff, on_score_no_update_on_game_over,
   fun sides => ⟨countGameOver_left_le_one sides _, countGameOver_right_le_one sides _⟩,
   fun sides hfin => countGameOver_left_eq_one sides _ (by norm_num) hfin,
   fun sides hfin => countGameOver_right_eq_one sides _ (by norm_num) hfin⟩

/-- C2 witness: eleven left points from (0, 0) — the final left score is 11
and the left `game_over` fired exactly once. -/
theorem score_tracker_spec_witness :
    countGameOver "left"
      (runScoreEvents (List.replicate 11 "left") { score0 := 0, score1 := 0 }) = 1 :=
  score_tracker_spec.2.2.2.2.1 (List.replicate 11 "left") (by decide)

end Pong
